import Mathlib

/-! Tegra cluster switching and MODS dma-buf address lookup.

A shallow embedding of

* `drivers/platform/tegra/cluster-control.c` (`cluster_switch_supported`,
  `tegra_bpmp_switch_cluster`, `switch_cluster`, `tegra_cluster_control`), and
* `drivers/misc/mods/mods_dmabuf.c` (`esc_mods_dmabuf_get_phys_addr`),

with the properties of the specification stated and proved over it.

Kernel services the two files call (mutex, notifier chain, tracepoints, stop-machine,
preemption and interrupt control, the BPMP mailbox) are recorded as events of a trace, in
program order.  C integers are `Nat`/`Int` with explicit reduction modulo `2^w`.
-/

namespace Errno

/-- Value of `EFAULT` in `errno-base.h`. -/
def EFAULT : Int := 14

/-- Value of `EINVAL` in `errno-base.h`. -/
def EINVAL : Int := 22

end Errno

namespace ClusterControl

open Errno

/-! ## Constants and types from headers -/

/-- Offset of the fuse register read by `cluster_switch_supported`. -/
def SKU_DIRECT_CONFIG : Nat := 0x1f4

/-- Bit of `SKU_DIRECT_CONFIG` that disables the slow cluster. -/
def DISABLE_SLOW_CLUSTER_BIT : Nat := 5

/-- Value of `PSCI_POWER_STATE_TYPE_POWER_DOWN` in `asm/psci.h`. -/
def PSCI_POWER_STATE_TYPE_POWER_DOWN : Nat := 1

/-- The static `pg_core_arg`: core power-down, retention level 30. -/
def pg_core_arg : Nat := (PSCI_POWER_STATE_TYPE_POWER_DOWN <<< 30) ||| 30

/-- The static `pg_cluster_arg`: cluster power-down, retention level 31. -/
def pg_cluster_arg : Nat := (PSCI_POWER_STATE_TYPE_POWER_DOWN <<< 30) ||| 31

/-- Modelled from the spec: `enum cluster` of `linux/tegra_cluster_control.h`, the
`ClusterId` of the data model, with the two values Fast and Slow. -/
inductive cluster where
  | FAST_CLUSTER
  | SLOW_CLUSTER
  deriving DecidableEq, Repr

/-- Numeric value of an `enum cluster` constant: the code compares it with the result of
`is_lp_cluster()` and tests `current_cluster` for being non-zero, so Fast is 0 and
Slow is 1. -/
def cluster.val : cluster → Nat
  | .FAST_CLUSTER => 0
  | .SLOW_CLUSTER => 1

/-- The `enum cluster` a C truth value converts to. -/
def cluster.ofBool : Bool → cluster
  | false => .FAST_CLUSTER
  | true => .SLOW_CLUSTER

/-- Modelled from the spec: the notifier actions `TEGRA_CLUSTER_PRE_SWITCH` and
`TEGRA_CLUSTER_POST_SWITCH`, the `phase: Pre|Post` of a `NotificationEvent`. -/
inductive switch_action where
  | TEGRA_CLUSTER_PRE_SWITCH
  | TEGRA_CLUSTER_POST_SWITCH
  deriving DecidableEq, Repr

/-- The two tracepoint phases of `trace_nvcpu_clusterswitch`. -/
inductive nvpower_phase where
  | NVPOWER_CPU_CLUSTER_START
  | NVPOWER_CPU_CLUSTER_DONE
  deriving DecidableEq, Repr

/-- What lies outside `cluster-control.c`: the flag constants of the header, the CPU the
caller runs on, the logical-to-physical CPU map, and the BPMP mailbox. -/
structure Platform where
  /-- The flag that requests the fast cluster. -/
  TEGRA_POWER_CLUSTER_G : Nat
  /-- The flag that requests the slow cluster. -/
  TEGRA_POWER_CLUSTER_LP : Nat
  /-- The mask of the cluster field of `flags`. -/
  TEGRA_POWER_CLUSTER_MASK : Nat
  /-- The logical CPU the call runs on; preemption is disabled between the two reads in
  `switch_cluster`, so both give the same value. -/
  smp_processor_id : Nat
  /-- The physical id of a logical CPU. -/
  cpu_logical_map : Nat → Nat
  /-- The answer of the BPMP firmware to an `MRQ_SWITCH_CLUSTER` request word: `none` when
  the exchange does not complete, otherwise the 32-bit reply word. -/
  bpmp_reply : Nat → Option Nat

/-- The observable actions of the driver, in the order it performs them. -/
inductive Event where
  /-- The call `mutex_lock(&cluster_switch_lock)` -/
  | mutex_lock
  /-- The call `mutex_unlock(&cluster_switch_lock)` -/
  | mutex_unlock
  /-- The call `blocking_notifier_call_chain(&cluster_switch_chain, action, &val)` -/
  | notifier_call_chain (action : switch_action) (val : cluster)
  /-- The call `preempt_disable()` -/
  | preempt_disable
  /-- The call `preempt_enable()` -/
  | preempt_enable
  /-- The mailbox exchange is started with request word `mb`. -/
  | bpmp_request (mb : Nat)
  /-- The call `WARN_ON(1)` -/
  | warn_on
  /-- The call `stop_one_cpu_nowait(cpu, shutdown_core, ...)`, which queues the quiesce task
  `shutdown_core` for `cpu` and does not wait for it; the task itself runs on that CPU,
  outside the call. -/
  | stop_one_cpu_nowait (cpu : Nat)
  /-- The call `local_irq_save(flag)` -/
  | local_irq_save
  /-- The call `local_irq_restore(flag)` -/
  | local_irq_restore
  /-- The call `cpu_pm_enter()` -/
  | cpu_pm_enter
  /-- The call `cpu_suspend(arg, NULL)` -/
  | cpu_suspend (arg : Nat)
  /-- The call `cpu_pm_exit()` -/
  | cpu_pm_exit
  /-- The call `trace_nvcpu_clusterswitch(phase, current, target)` -/
  | trace_clusterswitch (phase : nvpower_phase) (cur target : cluster)
  deriving DecidableEq, Repr

/-- The state the driver reads and writes. -/
structure Machine where
  /-- The static `slow_cluster_enabled` (a `u32`). -/
  slow_cluster_enabled : Nat
  /-- The cluster the CPUs run on, as `is_lp_cluster()` reports it. -/
  lp_cluster : Bool
  /-- The firmware has accepted a switch request that the hardware has not carried out. -/
  switch_pending : Bool
  /-- The events so far, oldest first. -/
  trace : List Event
  deriving DecidableEq, Repr

/-- How a call of `tegra_cluster_control` ends. -/
inductive Outcome where
  /-- A `BUG_ON` fired. -/
  | BUG
  /-- The call returned `code`. -/
  | returned (code : Int)
  deriving DecidableEq, Repr

/-- Record one event. -/
def emit (ev : Event) (m : Machine) : Machine :=
  { m with trace := m.trace ++ [ev] }

/-- Modelled from the spec: `is_lp_cluster()` of `sleep.h`, true when the slow cluster is
the current cluster. -/
def is_lp_cluster (m : Machine) : Bool :=
  m.lp_cluster

/-- Modelled from the spec: `cpu_suspend`, the low-level suspend entry, which is not part
of the driver.  The firmware request asks for the switch, and the suspend of the initiating
CPU with the cluster power-down argument "is the trigger the firmware/hardware uses to
complete the physical cluster handoff" and "returns only after the hardware completes the
cluster handoff and resumes this CPU in the new cluster"; when the exchange did not
complete, the "current cluster remains unchanged". -/
def cpu_suspend (arg : Nat) (m : Machine) : Machine :=
  let m := emit (.cpu_suspend arg) m
  if arg == pg_cluster_arg && m.switch_pending then
    { m with lp_cluster := !m.lp_cluster, switch_pending := false }
  else
    m

/-- Modelled from the spec: the mailbox primitive `tegra_bpmp_send_receive_atomic` for the
message `MRQ_SWITCH_CLUSTER` with request word `mb`, "a synchronous, non-preemptible
request/response exchange with an external coprocessor".  The result is `none` when the
call returns non-zero, otherwise the reply word `on_cpus`; with a reply the firmware has
taken the request. -/
def tegra_bpmp_send_receive_atomic (p : Platform) (mb : Nat) (m : Machine) :
    Option Nat × Machine :=
  let m := emit (.bpmp_request mb) m
  match p.bpmp_reply mb with
  | none => (none, m)
  | some on_cpus => (some on_cpus, { m with switch_pending := true })

/-! ## 32-bit integers -/

/-- The bit pattern of a C `int`, as an unsigned 32-bit number. -/
def to_u32 (x : Int) : Nat :=
  (x % 4294967296).toNat

/-- The C `int` (`int32_t`) with a given 32-bit pattern. -/
def to_s32 (w : Nat) : Int :=
  if w % 4294967296 < 2147483648 then (w % 4294967296 : Nat)
  else (w % 4294967296 : Nat) - 4294967296

/-- The C condition `x & b` for an `int` x and a constant b. -/
def int_and (x : Int) (b : Nat) : Bool :=
  (to_u32 x &&& b) != 0

/-! ## cpumask -/

/-- A `struct cpumask`, as the characteristic function of the set of CPUs. -/
def cpumask := Nat → Bool

/-- Number of logical CPUs of the Tegra210: the driver fills the slots of CPU 0 to 3. -/
def nr_cpu_ids : Nat := 4

/-- The kernel helper `cpumask_clear`. -/
def cpumask_clear : cpumask :=
  fun _ => false

/-- The kernel helper `cpumask_set_cpu`. -/
def cpumask_set_cpu (cpu : Nat) (mask : cpumask) : cpumask :=
  fun i => i == cpu || mask i

/-- The kernel helper `cpumask_clear_cpu`. -/
def cpumask_clear_cpu (cpu : Nat) (mask : cpumask) : cpumask :=
  fun i => i != cpu && mask i

/-- The CPUs `for_each_cpu` visits, in the order it visits them. -/
def for_each_cpu (mask : cpumask) : List Nat :=
  (List.range nr_cpu_ids).filter mask

/-! ## The driver -/

/-- The function `shutdown_cluster`. -/
def shutdown_cluster (m : Machine) : Machine :=
  let m := emit .cpu_pm_enter m
  let m := cpu_suspend pg_cluster_arg m
  emit .cpu_pm_exit m

/-- The function `cluster_switch_supported`, given the fuse read `tegra_fuse_readl` as a
map from register offset to the word read. -/
def cluster_switch_supported (tegra_fuse_readl : Nat → Nat) : Bool :=
  let lp_cluster_disabled := tegra_fuse_readl SKU_DIRECT_CONFIG % 4294967296
  let lp_cluster_disabled := lp_cluster_disabled >>> DISABLE_SLOW_CLUSTER_BIT
  let lp_cluster_disabled := lp_cluster_disabled &&& 0x1
  lp_cluster_disabled == 0

/-- The function `tegra_bpmp_switch_cluster`: the value returned and the state after. -/
def tegra_bpmp_switch_cluster (p : Platform) (cpu : Int) (m : Machine) : Int × Machine :=
  let mb := to_u32 cpu
  match tegra_bpmp_send_receive_atomic p mb m with
  | (none, m) => (-EFAULT, emit .warn_on m)
  | (some on_cpus, m) => (to_s32 on_cpus, m)

/-- The function `switch_cluster`. -/
def switch_cluster (p : Platform) (val : cluster) (m : Machine) : Machine :=
  let m := emit .mutex_lock m
  let target_cluster := val.val
  if target_cluster == (is_lp_cluster m).toNat then
    emit .mutex_unlock m
  else
    let m := emit (.notifier_call_chain .TEGRA_CLUSTER_PRE_SWITCH val) m
    let m := emit .preempt_disable m
    let phys_cpu_id := to_s32 (p.cpu_logical_map p.smp_processor_id)
    let (bpmp_cpu_mask, m) := tegra_bpmp_switch_cluster p phys_cpu_id m
    let mask := cpumask_clear
    let mask := if int_and bpmp_cpu_mask 1 then cpumask_set_cpu 0 mask else mask
    let mask := if int_and bpmp_cpu_mask 2 then cpumask_set_cpu 1 mask else mask
    let mask := if int_and bpmp_cpu_mask 4 then cpumask_set_cpu 2 mask else mask
    let mask := if int_and bpmp_cpu_mask 8 then cpumask_set_cpu 3 mask else mask
    let mask := cpumask_clear_cpu p.smp_processor_id mask
    let m := (for_each_cpu mask).foldl (fun m cpu => emit (.stop_one_cpu_nowait cpu) m) m
    let m := emit .local_irq_save m
    let m := shutdown_cluster m
    let m := emit .local_irq_restore m
    let m := emit .preempt_enable m
    let m := emit (.notifier_call_chain .TEGRA_CLUSTER_POST_SWITCH val) m
    emit .mutex_unlock m

/-- The function `tegra_cluster_control`: how the call ends and the state after. -/
def tegra_cluster_control (p : Platform) (_us : Nat) (flags : Nat) (m : Machine) :
    Outcome × Machine :=
  let cluster_flag := flags &&& p.TEGRA_POWER_CLUSTER_MASK
  let current_cluster := cluster.ofBool (is_lp_cluster m)
  if m.slow_cluster_enabled == 0 && current_cluster.val != 0 then
    (.BUG, m)
  else if cluster_flag == p.TEGRA_POWER_CLUSTER_G then
    let m := emit
      (.trace_clusterswitch .NVPOWER_CPU_CLUSTER_START current_cluster .FAST_CLUSTER) m
    let m := switch_cluster p .FAST_CLUSTER m
    let m := emit
      (.trace_clusterswitch .NVPOWER_CPU_CLUSTER_DONE current_cluster .FAST_CLUSTER) m
    (.returned 0, m)
  else if cluster_flag == p.TEGRA_POWER_CLUSTER_LP then
    if m.slow_cluster_enabled == 0 then
      (.returned (-EINVAL), m)
    else
      let m := emit
        (.trace_clusterswitch .NVPOWER_CPU_CLUSTER_START current_cluster .SLOW_CLUSTER) m
      let m := switch_cluster p .SLOW_CLUSTER m
      let m := emit
        (.trace_clusterswitch .NVPOWER_CPU_CLUSTER_DONE current_cluster .SLOW_CLUSTER) m
      (.returned 0, m)
  else
    (.returned 0, m)

/-- The function `tegra210_cluster_control_init`, without the debugfs entry and the log
line: the capability is sampled once. -/
def tegra210_cluster_control_init (tegra_fuse_readl : Nat → Nat) (m : Machine) : Machine :=
  { m with slow_cluster_enabled := (cluster_switch_supported tegra_fuse_readl).toNat }

/-! ## Reading a trace -/

/-- The targets of the notifications of one phase, in order of delivery. -/
def notifications (action : switch_action) (t : List Event) : List cluster :=
  t.filterMap fun ev =>
    match ev with
    | .notifier_call_chain a v => if a = action then some v else none
    | _ => none

/-- The CPUs a quiesce task was dispatched to, in order of dispatch. -/
def dispatched (t : List Event) : List Nat :=
  t.filterMap fun ev =>
    match ev with
    | .stop_one_cpu_nowait cpu => some cpu
    | _ => none

/-- The request words sent to the firmware. -/
def firmware_requests (t : List Event) : List Nat :=
  t.filterMap fun ev =>
    match ev with
    | .bpmp_request mb => some mb
    | _ => none

/-- The arguments of the suspend calls made. -/
def suspends (t : List Event) : List Nat :=
  t.filterMap fun ev =>
    match ev with
    | .cpu_suspend arg => some arg
    | _ => none

/-- The current cluster of a state. -/
def current_cluster (m : Machine) : cluster :=
  cluster.ofBool (is_lp_cluster m)

/-- Invariant 1 of the data model: a disabled slow cluster is never the current one. -/
def invariant1 (m : Machine) : Prop :=
  current_cluster m = .SLOW_CLUSTER → m.slow_cluster_enabled ≠ 0

instance (m : Machine) : Decidable (invariant1 m) := by
  unfold invariant1; infer_instance

/-- An example platform: the request flags are bits 24 and 25 of `flags`, the call runs on
CPU `cpu`, logical and physical CPU ids coincide, and the mailbox exchange has the given
outcome. -/
def tegra210 (cpu : Nat) (reply : Option Nat) : Platform where
  TEGRA_POWER_CLUSTER_G := 1 <<< 24
  TEGRA_POWER_CLUSTER_LP := 1 <<< 25
  TEGRA_POWER_CLUSTER_MASK := (1 <<< 24) ||| (1 <<< 25)
  smp_processor_id := cpu
  cpu_logical_map := fun c => c
  bpmp_reply := fun _ => reply

/-- A state with an empty trace and no request pending. -/
def idle (enabled : Nat) (lp : Bool) : Machine :=
  { slow_cluster_enabled := enabled, lp_cluster := lp, switch_pending := false, trace := [] }

/-- The events a call added to the trace, given the states before and after it. -/
def events_between (m m' : Machine) : List Event :=
  m'.trace.drop m.trace.length

/-- The flag value that requests a given cluster. -/
def request_flag (p : Platform) : cluster → Nat
  | .FAST_CLUSTER => p.TEGRA_POWER_CLUSTER_G
  | .SLOW_CLUSTER => p.TEGRA_POWER_CLUSTER_LP

/-- The request word `switch_cluster` sends to the firmware. -/
def request_word (p : Platform) : Nat :=
  to_u32 (to_s32 (p.cpu_logical_map p.smp_processor_id))

/-- The outcome of the exchange `switch_cluster` performs. -/
def firmware_reply (p : Platform) : Option Nat :=
  p.bpmp_reply (request_word p)

/-- The CPUs `switch_cluster` visits in its dispatch loop, for a value returned by
`tegra_bpmp_switch_cluster` and the CPU it runs on. -/
def quiesce_cpus (bpmp_cpu_mask : Int) (self : Nat) : List Nat :=
  let mask := cpumask_clear
  let mask := if int_and bpmp_cpu_mask 1 then cpumask_set_cpu 0 mask else mask
  let mask := if int_and bpmp_cpu_mask 2 then cpumask_set_cpu 1 mask else mask
  let mask := if int_and bpmp_cpu_mask 4 then cpumask_set_cpu 2 mask else mask
  let mask := if int_and bpmp_cpu_mask 8 then cpumask_set_cpu 3 mask else mask
  let mask := cpumask_clear_cpu self mask
  for_each_cpu mask

/-- The value `tegra_bpmp_switch_cluster` returns for an outcome of the exchange. -/
def bpmp_result : Option Nat → Int
  | none => -EFAULT
  | some on_cpus => to_s32 on_cpus

/-- The events of the firmware stage for an outcome of the exchange. -/
def bpmp_events (mb : Nat) : Option Nat → List Event
  | none => [.bpmp_request mb, .warn_on]
  | some _ => [.bpmp_request mb]

/-- The events from interrupt save to the post-switch notification. -/
def transition_events (val : cluster) : List Event :=
  [.local_irq_save, .cpu_pm_enter, .cpu_suspend pg_cluster_arg, .cpu_pm_exit,
   .local_irq_restore, .preempt_enable,
   .notifier_call_chain .TEGRA_CLUSTER_POST_SWITCH val]

/-- The events of a switch between the taking and the release of the lock, for the
target `val`. -/
def switch_body (p : Platform) (val : cluster) : List Event :=
  [.notifier_call_chain .TEGRA_CLUSTER_PRE_SWITCH val, .preempt_disable] ++
    bpmp_events (request_word p) (firmware_reply p) ++
    (quiesce_cpus (bpmp_result (firmware_reply p)) p.smp_processor_id).map
      Event.stop_one_cpu_nowait ++
    transition_events val

end ClusterControl

namespace Mods

open Errno

/-! ## Types and constants of the kernel build -/

/-- The ARM kernel configurations the driver builds for; they fix the C integer widths. -/
inductive Arch where
  /-- 32-bit ARM, 32-bit physical addresses. -/
  | arm
  /-- 32-bit ARM with LPAE, 64-bit physical addresses. -/
  | arm_lpae
  /-- 64-bit ARM. -/
  | arm64
  deriving DecidableEq, Repr

/-- Width of `unsigned long`. -/
def BITS_PER_LONG : Arch → Nat
  | .arm => 32
  | .arm_lpae => 32
  | .arm64 => 64

/-- Width of `phys_addr_t`. -/
def PHYS_ADDR_BITS : Arch → Nat
  | .arm => 32
  | .arm_lpae => 64
  | .arm64 => 64

/-- The kernel build: the architecture and the page shift. -/
structure Config where
  /-- The architecture. -/
  arch : Arch
  /-- The constant `PAGE_SHIFT`. -/
  PAGE_SHIFT : Nat
  deriving DecidableEq, Repr

/-- The constant `PAGE_SIZE`, `1UL << PAGE_SHIFT`. -/
def PAGE_SIZE (c : Config) : Nat :=
  1 <<< c.PAGE_SHIFT

/-- The constant `UINT_MAX`. -/
def UINT_MAX : Nat := 4294967295

/-- Reduction to `unsigned int`. -/
def to_uint (x : Nat) : Nat :=
  x % 2 ^ 32

/-- Reduction to `unsigned long`. -/
def to_ulong (c : Config) (x : Nat) : Nat :=
  x % 2 ^ BITS_PER_LONG c.arch

/-- Reduction to `phys_addr_t`. -/
def to_phys (c : Config) (x : Nat) : Nat :=
  x % 2 ^ PHYS_ADDR_BITS c.arch

/-- Reduction to the common type of a `phys_addr_t` and an `unsigned long`. -/
def to_phys_ulong (c : Config) (x : Nat) : Nat :=
  x % 2 ^ max (PHYS_ADDR_BITS c.arch) (BITS_PER_LONG c.arch)

/-- Reduction to `__u64`. -/
def to_u64 (x : Nat) : Nat :=
  x % 2 ^ 64

/-- What a kernel call that returns a pointer gives: a valid object, `ERR_PTR(err)`, or
`NULL`. -/
inductive kptr (α : Type) where
  | valid (v : α)
  | ERR_PTR (err : Int)
  | NULL
  deriving Repr

/-- The answers of the dma-buf layer for the descriptor `op->buf_fd`.  A mapped buffer is
the list of `page_to_phys` of the pages of its scatter list, in the order
`for_each_sg_page` visits them from page offset 0. -/
structure DmaBuf where
  /-- The result of `dma_buf_get(op->buf_fd)` -/
  dma_buf_get : kptr Unit
  /-- The result of `dma_buf_attach(dmabuf, &dummy_device.dev)` -/
  dma_buf_attach : kptr Unit
  /-- The result of `dma_buf_map_attachment(attachment, DMA_BIDIRECTIONAL)` -/
  dma_buf_map_attachment : kptr (List Nat)

/-- The ioctl argument `struct MODS_DMABUF_GET_PHYSICAL_ADDRESS`. -/
structure MODS_DMABUF_GET_PHYSICAL_ADDRESS where
  /-- in: `__s32 buf_fd` -/
  buf_fd : Int
  /-- in: `__u64 offset` -/
  offset : Nat
  /-- out: `__u64 physical_address` -/
  physical_address : Nat
  /-- out: `__u64 segment_size` -/
  segment_size : Nat
  deriving DecidableEq, Repr

/-- The two locals the page loop updates. -/
structure Scan where
  /-- The local `phys_addr_t page_phys_addr` -/
  page_phys_addr : Nat
  /-- The local `unsigned int contig_pages` -/
  contig_pages : Nat
  deriving DecidableEq, Repr

/-! ## The driver -/

/-- One pass through the body of the page loop for a page with `page_to_phys(pg) = pg`, a
`phys_addr_t`: the locals after it, or `none` for `break`. -/
def scan_page (c : Config) (pg : Nat) (st : Scan) : Option Scan :=
  if st.contig_pages == 0 then
    some { page_phys_addr := pg, contig_pages := 1 }
  else if pg == to_phys_ulong c
      (st.page_phys_addr + to_ulong c (PAGE_SIZE c * st.contig_pages)) then
    some { st with contig_pages := to_uint (st.contig_pages + 1) }
  else
    none

/-- The loop `for_each_sg_page` over the pages left to visit. -/
def for_each_sg_page (c : Config) : List Nat → Scan → Scan
  | [], st => st
  | pg :: rest, st =>
    match scan_page c pg st with
    | some st' => for_each_sg_page c rest st'
    | none => st

/-- The function `esc_mods_dmabuf_get_phys_addr`: the value returned and `*op` after the call. -/
def esc_mods_dmabuf_get_phys_addr (c : Config) (buf : DmaBuf)
    (op : MODS_DMABUF_GET_PHYSICAL_ADDRESS) : Int × MODS_DMABUF_GET_PHYSICAL_ADDRESS :=
  let subpage_ofs := to_uint (op.offset &&& (PAGE_SIZE c - 1))
  if op.offset > UINT_MAX then
    (-EINVAL, op)
  else
    match buf.dma_buf_get with
    | .ERR_PTR err => (err, op)
    | .NULL => (-EINVAL, op)
    | .valid _ =>
      match buf.dma_buf_attach with
      | .ERR_PTR err => (err, op)
      | .NULL => (-EFAULT, op)
      | .valid _ =>
        match buf.dma_buf_map_attachment with
        | .ERR_PTR err => (err, op)
        | .NULL => (-EFAULT, op)
        | .valid pages =>
          let st := for_each_sg_page c
            (pages.drop (to_ulong c (op.offset >>> c.PAGE_SHIFT)))
            { page_phys_addr := 0, contig_pages := 0 }
          if st.contig_pages == 0 then
            (-EINVAL, op)
          else
            (0, { op with
                  physical_address := to_u64 (to_phys c (st.page_phys_addr + subpage_ofs))
                  segment_size := to_u64 (to_ulong c
                    (to_ulong c (st.contig_pages * PAGE_SIZE c)
                      + 2 ^ BITS_PER_LONG c.arch - to_ulong c subpage_ofs)) })

/-! ## Contiguous runs -/

/-- The pages `k, k+1, ..., k+m-1` of `p` exist and are physically contiguous. -/
def contiguous_run (c : Config) (p : List Nat) (k m : Nat) : Prop :=
  k + m ≤ p.length ∧ ∀ j, j < m → p.getD (k + j) 0 = p.getD k 0 + j * PAGE_SIZE c

/-- The number `m` is the length of the maximal contiguous run of `p` from page `k`. -/
def maximal_run (c : Config) (p : List Nat) (k m : Nat) : Prop :=
  contiguous_run c p k m ∧ ∀ m', contiguous_run c p k m' → m' ≤ m

/-- The number of leading pages of `l` that continue a run of `cnt` pages from `base`. -/
def run_from (c : Config) (base cnt : Nat) : List Nat → Nat
  | [] => 0
  | pg :: rest =>
    if pg = base + cnt * PAGE_SIZE c then 1 + run_from c base (cnt + 1) rest else 0

/-- A mapped buffer with the given pages. -/
def mapped (pages : List Nat) : DmaBuf where
  dma_buf_get := .valid ()
  dma_buf_attach := .valid ()
  dma_buf_map_attachment := .valid pages

end Mods

namespace ClusterControl

open Errno

/-! ## Lemmas on the driver -/

theorem foldl_emit_stop (l : List Nat) (m : Machine) :
    l.foldl (fun m cpu => emit (.stop_one_cpu_nowait cpu) m) m
      = { m with trace := m.trace ++ l.map Event.stop_one_cpu_nowait } := by
  induction l generalizing m with
  | nil => simp
  | cons a l ih =>
    simp only [List.foldl_cons, List.map_cons]
    rw [ih]
    simp [emit]

theorem tegra_bpmp_switch_cluster_eq (p : Platform) (cpu : Int) (m : Machine) :
    tegra_bpmp_switch_cluster p cpu m
      = (bpmp_result (p.bpmp_reply (to_u32 cpu)),
          { m with
            switch_pending := (p.bpmp_reply (to_u32 cpu)).isSome || m.switch_pending
            trace := m.trace ++ bpmp_events (to_u32 cpu) (p.bpmp_reply (to_u32 cpu)) }) := by
  cases hr : p.bpmp_reply (to_u32 cpu) <;>
    simp [tegra_bpmp_switch_cluster, tegra_bpmp_send_receive_atomic, hr, bpmp_result,
      bpmp_events, emit]

theorem switch_cluster_same (p : Platform) (val : cluster) (m : Machine)
    (h : val.val = (is_lp_cluster m).toNat) :
    switch_cluster p val m
      = { m with trace := m.trace ++ [.mutex_lock, .mutex_unlock] } := by
  simp [switch_cluster, emit, is_lp_cluster] at *
  simp [h]

theorem switch_cluster_other (p : Platform) (val : cluster) (m : Machine)
    (h : val.val ≠ (is_lp_cluster m).toNat) :
    switch_cluster p val m
      = { slow_cluster_enabled := m.slow_cluster_enabled
          lp_cluster := if (firmware_reply p).isSome || m.switch_pending then !m.lp_cluster
                        else m.lp_cluster
          switch_pending := false
          trace := m.trace ++ ([.mutex_lock] ++ switch_body p val ++ [.mutex_unlock]) } := by
  have h' : ¬ (val.val = m.lp_cluster.toNat) := h
  cases hr : firmware_reply p <;> cases hp : m.switch_pending <;>
  · have hr' : p.bpmp_reply
        (to_u32 (to_s32 (p.cpu_logical_map p.smp_processor_id))) = _ := hr
    unfold switch_cluster
    simp only [tegra_bpmp_switch_cluster_eq, foldl_emit_stop, hr']
    simp [emit, is_lp_cluster, h', shutdown_cluster, cpu_suspend, hp, request_word,
      quiesce_cpus, transition_events, switch_body, hr]

theorem int_and_two_pow (x : Int) (i : Nat) :
    int_and x (2 ^ i) = (to_u32 x).testBit i := by
  unfold int_and
  rw [Nat.and_two_pow]
  cases (to_u32 x).testBit i <;> simp

theorem to_u32_to_s32 (w : Nat) : to_u32 (to_s32 w) = w % 4294967296 := by
  unfold to_u32 to_s32
  split <;> omega

theorem testBit_to_u32_to_s32 (w i : Nat) (hi : i < 32) :
    (to_u32 (to_s32 w)).testBit i = w.testBit i := by
  rw [to_u32_to_s32]
  have h : (4294967296 : Nat) = 2 ^ 32 := by norm_num
  rw [h, Nat.testBit_mod_two_pow]
  simp [hi]

theorem quiesce_cpus_eq (x : Int) (c : Nat) :
    quiesce_cpus x c
      = (List.range 4).filter (fun i => (to_u32 x).testBit i && i != c) := by
  have h0 : int_and x 1 = (to_u32 x).testBit 0 := int_and_two_pow x 0
  have h1 : int_and x 2 = (to_u32 x).testBit 1 := int_and_two_pow x 1
  have h2 : int_and x 4 = (to_u32 x).testBit 2 := int_and_two_pow x 2
  have h3 : int_and x 8 = (to_u32 x).testBit 3 := int_and_two_pow x 3
  unfold quiesce_cpus for_each_cpu nr_cpu_ids
  simp only [h0, h1, h2, h3]
  apply List.filter_congr
  intro i hi
  have hi4 : i < 4 := List.mem_range.mp hi
  clear h0 h1 h2 h3 hi
  interval_cases i <;>
  · generalize (to_u32 x).testBit 0 = b0
    generalize (to_u32 x).testBit 1 = b1
    generalize (to_u32 x).testBit 2 = b2
    generalize (to_u32 x).testBit 3 = b3
    cases b0 <;> cases b1 <;> cases b2 <;> cases b3 <;>
      simp [cpumask_clear, cpumask_set_cpu, cpumask_clear_cpu]

theorem events_between_append (m m' : Machine) (evs : List Event)
    (h : m'.trace = m.trace ++ evs) : events_between m m' = evs := by
  simp [events_between, h]

theorem notifications_append (a : switch_action) (s t : List Event) :
    notifications a (s ++ t) = notifications a s ++ notifications a t := by
  simp [notifications]

theorem dispatched_append (s t : List Event) :
    dispatched (s ++ t) = dispatched s ++ dispatched t := by
  simp [dispatched]

theorem notifications_stop (a : switch_action) (l : List Nat) :
    notifications a (l.map Event.stop_one_cpu_nowait) = [] := by
  induction l with
  | nil => rfl
  | cons c l ih => simp [notifications]

theorem dispatched_stop (l : List Nat) :
    dispatched (l.map Event.stop_one_cpu_nowait) = l := by
  induction l with
  | nil => rfl
  | cons c l ih => simpa [dispatched] using ih

theorem notifications_bpmp (a : switch_action) (mb : Nat) (r : Option Nat) :
    notifications a (bpmp_events mb r) = [] := by
  cases r <;> simp [notifications, bpmp_events]

theorem dispatched_bpmp (mb : Nat) (r : Option Nat) :
    dispatched (bpmp_events mb r) = [] := by
  cases r <;> simp [dispatched, bpmp_events]

/-- The events of a call of `tegra_cluster_control` that goes through with a switch. -/
theorem tegra_cluster_control_switch (p : Platform) (us flags : Nat) (m : Machine)
    (t : cluster)
    (h_distinct : p.TEGRA_POWER_CLUSTER_G ≠ p.TEGRA_POWER_CLUSTER_LP)
    (h_req : flags &&& p.TEGRA_POWER_CLUSTER_MASK = request_flag p t)
    (h_cur : current_cluster m ≠ t)
    (h_en : m.slow_cluster_enabled ≠ 0) :
    (tegra_cluster_control p us flags m).1 = .returned 0 ∧
    (tegra_cluster_control p us flags m).2.lp_cluster
      = (if (firmware_reply p).isSome || m.switch_pending then !m.lp_cluster
         else m.lp_cluster) ∧
    (tegra_cluster_control p us flags m).2.slow_cluster_enabled = m.slow_cluster_enabled ∧
    (tegra_cluster_control p us flags m).2.trace
      = m.trace ++
        ([.trace_clusterswitch .NVPOWER_CPU_CLUSTER_START (current_cluster m) t,
          .mutex_lock] ++ switch_body p t ++
         [.mutex_unlock,
          .trace_clusterswitch .NVPOWER_CPU_CLUSTER_DONE (current_cluster m) t]) := by
  cases t <;> cases hlp : m.lp_cluster <;>
    simp [current_cluster, is_lp_cluster, cluster.ofBool, hlp] at h_cur
  · -- Fast requested, Slow current
    have hne : cluster.FAST_CLUSTER.val ≠
        (is_lp_cluster (emit (.trace_clusterswitch .NVPOWER_CPU_CLUSTER_START
          .SLOW_CLUSTER .FAST_CLUSTER) m)).toNat := by
      simp [is_lp_cluster, emit, hlp, cluster.val]
    simp only [request_flag] at h_req
    have e : tegra_cluster_control p us flags m
        = (.returned 0, emit (.trace_clusterswitch .NVPOWER_CPU_CLUSTER_DONE
            .SLOW_CLUSTER .FAST_CLUSTER) (switch_cluster p .FAST_CLUSTER
              (emit (.trace_clusterswitch .NVPOWER_CPU_CLUSTER_START
                .SLOW_CLUSTER .FAST_CLUSTER) m))) := by
      simp [tegra_cluster_control, h_req, h_en, is_lp_cluster, hlp, cluster.ofBool]
    rw [e, switch_cluster_other _ _ _ hne]
    simp [emit, current_cluster, is_lp_cluster, hlp, cluster.ofBool]
  · -- Slow requested, Fast current
    have hne : cluster.SLOW_CLUSTER.val ≠
        (is_lp_cluster (emit (.trace_clusterswitch .NVPOWER_CPU_CLUSTER_START
          .FAST_CLUSTER .SLOW_CLUSTER) m)).toNat := by
      simp [is_lp_cluster, emit, hlp, cluster.val]
    simp only [request_flag] at h_req
    have e : tegra_cluster_control p us flags m
        = (.returned 0, emit (.trace_clusterswitch .NVPOWER_CPU_CLUSTER_DONE
            .FAST_CLUSTER .SLOW_CLUSTER) (switch_cluster p .SLOW_CLUSTER
              (emit (.trace_clusterswitch .NVPOWER_CPU_CLUSTER_START
                .FAST_CLUSTER .SLOW_CLUSTER) m))) := by
      simp [tegra_cluster_control, h_req, h_en, is_lp_cluster, hlp, cluster.ofBool,
        h_distinct.symm]
    rw [e, switch_cluster_other _ _ _ hne]
    simp [emit, current_cluster, is_lp_cluster, hlp, cluster.ofBool]

/-- The events of a call of `tegra_cluster_control` whose target is the current cluster. -/
theorem tegra_cluster_control_same (p : Platform) (us flags : Nat) (m : Machine)
    (t : cluster)
    (h_distinct : p.TEGRA_POWER_CLUSTER_G ≠ p.TEGRA_POWER_CLUSTER_LP)
    (h_req : flags &&& p.TEGRA_POWER_CLUSTER_MASK = request_flag p t)
    (h_cur : current_cluster m = t)
    (h_inv : invariant1 m) :
    tegra_cluster_control p us flags m
      = (.returned 0,
         { m with trace := m.trace ++
            [.trace_clusterswitch .NVPOWER_CPU_CLUSTER_START t t, .mutex_lock, .mutex_unlock,
             .trace_clusterswitch .NVPOWER_CPU_CLUSTER_DONE t t] }) := by
  subst h_cur
  cases hlp : m.lp_cluster
  · have he : cluster.FAST_CLUSTER.val =
        (is_lp_cluster (emit (.trace_clusterswitch .NVPOWER_CPU_CLUSTER_START
          .FAST_CLUSTER .FAST_CLUSTER) m)).toNat := by
      simp [is_lp_cluster, emit, hlp, cluster.val]
    simp only [request_flag, current_cluster, is_lp_cluster, hlp, cluster.ofBool] at h_req
    have e : tegra_cluster_control p us flags m
        = (.returned 0, emit (.trace_clusterswitch .NVPOWER_CPU_CLUSTER_DONE
            .FAST_CLUSTER .FAST_CLUSTER) (switch_cluster p .FAST_CLUSTER
              (emit (.trace_clusterswitch .NVPOWER_CPU_CLUSTER_START
                .FAST_CLUSTER .FAST_CLUSTER) m))) := by
      simp [tegra_cluster_control, h_req, is_lp_cluster, hlp, cluster.ofBool, cluster.val]
    rw [e, switch_cluster_same _ _ _ he]
    simp [emit, current_cluster, is_lp_cluster, hlp, cluster.ofBool]
  · have he : cluster.SLOW_CLUSTER.val =
        (is_lp_cluster (emit (.trace_clusterswitch .NVPOWER_CPU_CLUSTER_START
          .SLOW_CLUSTER .SLOW_CLUSTER) m)).toNat := by
      simp [is_lp_cluster, emit, hlp, cluster.val]
    have h_en : m.slow_cluster_enabled ≠ 0 := by
      apply h_inv
      simp [current_cluster, is_lp_cluster, hlp, cluster.ofBool]
    simp only [request_flag, current_cluster, is_lp_cluster, hlp, cluster.ofBool] at h_req
    have e : tegra_cluster_control p us flags m
        = (.returned 0, emit (.trace_clusterswitch .NVPOWER_CPU_CLUSTER_DONE
            .SLOW_CLUSTER .SLOW_CLUSTER) (switch_cluster p .SLOW_CLUSTER
              (emit (.trace_clusterswitch .NVPOWER_CPU_CLUSTER_START
                .SLOW_CLUSTER .SLOW_CLUSTER) m))) := by
      simp [tegra_cluster_control, h_req, h_en, is_lp_cluster, hlp, cluster.ofBool,
        h_distinct.symm]
    rw [e, switch_cluster_same _ _ _ he]
    simp [emit, current_cluster, is_lp_cluster, hlp, cluster.ofBool]

/-! ## The capability query -/

/-- C8: `cluster_switch_supported` is true exactly when bit 5 of the word read from the
register at offset 0x1f4 is clear, and fuse contents that agree on this bit give the same
answer. -/
theorem cluster_switch_supported_iff_bit5_clear (fuse : Nat → Nat) :
    (cluster_switch_supported fuse = true ↔ (fuse 0x1f4).testBit 5 = false) ∧
    ∀ other : Nat → Nat, (other 0x1f4).testBit 5 = (fuse 0x1f4).testBit 5 →
      cluster_switch_supported other = cluster_switch_supported fuse := by
  have key : ∀ f : Nat → Nat, cluster_switch_supported f = !(f 0x1f4).testBit 5 := by
    intro f
    have h : (4294967296 : Nat) = 2 ^ 32 := by norm_num
    have hb : (f 0x1f4 % 2 ^ 32).testBit 5 = (f 0x1f4).testBit 5 := by
      rw [Nat.testBit_mod_two_pow]; simp
    unfold cluster_switch_supported DISABLE_SLOW_CLUSTER_BIT SKU_DIRECT_CONFIG
    rw [h, ← hb]
    simp only [Nat.testBit, Nat.and_comm 1]
    cases hc : ((f 0x1f4 % 2 ^ 32) >>> 5 &&& 1) == 0 <;> simp_all
  refine ⟨?_, ?_⟩
  · rw [key]; cases (fuse 0x1f4).testBit 5 <;> simp
  · intro other hw
    rw [key, key, hw]

/-! ## The switch controller -/

/-- C2: a call that requests a cluster other than the current one, with the target
supported, invariant 1 holding and the firmware exchange succeeding, returns 0, leaves the
requested cluster current, and delivers exactly one pre-switch and exactly one post-switch
notification, each carrying the target. -/
theorem switch_reaches_target (p : Platform) (us flags : Nat) (m : Machine) (t : cluster)
    (r : Nat)
    (h_distinct : p.TEGRA_POWER_CLUSTER_G ≠ p.TEGRA_POWER_CLUSTER_LP)
    (h_req : flags &&& p.TEGRA_POWER_CLUSTER_MASK = request_flag p t)
    (h_cur : current_cluster m ≠ t)
    (h_sup : t = .SLOW_CLUSTER → m.slow_cluster_enabled ≠ 0)
    (h_inv : invariant1 m)
    (h_fw : firmware_reply p = some r) :
    (tegra_cluster_control p us flags m).1 = .returned 0 ∧
    current_cluster (tegra_cluster_control p us flags m).2 = t ∧
    notifications .TEGRA_CLUSTER_PRE_SWITCH
      (events_between m (tegra_cluster_control p us flags m).2) = [t] ∧
    notifications .TEGRA_CLUSTER_POST_SWITCH
      (events_between m (tegra_cluster_control p us flags m).2) = [t] := by
  have h_en : m.slow_cluster_enabled ≠ 0 := by
    cases t with
    | SLOW_CLUSTER => exact h_sup rfl
    | FAST_CLUSTER =>
      apply h_inv
      cases hc : current_cluster m with
      | FAST_CLUSTER => exact absurd hc h_cur
      | SLOW_CLUSTER => rfl
  obtain ⟨h1, h2, _, h4⟩ := tegra_cluster_control_switch p us flags m t h_distinct h_req h_cur h_en
  refine ⟨h1, ?_, ?_, ?_⟩
  · simp only [current_cluster, is_lp_cluster, h2, h_fw] at h_cur ⊢
    cases t <;> cases hlp : m.lp_cluster <;> simp [cluster.ofBool, hlp] at h_cur ⊢
  · rw [events_between_append _ _ _ h4]
    simp only [switch_body, notifications_append, notifications_bpmp, notifications_stop]
    simp [transition_events, notifications]
  · rw [events_between_append _ _ _ h4]
    simp only [switch_body, notifications_append, notifications_bpmp, notifications_stop]
    simp [transition_events, notifications]

/-- Witness for C2: Fast is current, Slow is requested on CPU 0, the firmware answers with
the mask of CPUs 0 to 3. -/
theorem switch_reaches_target_witness :
    (tegra_cluster_control (tegra210 0 (some 15)) 0 (1 <<< 25) (idle 1 false)).1 = .returned 0 ∧
    current_cluster (tegra_cluster_control (tegra210 0 (some 15)) 0 (1 <<< 25) (idle 1 false)).2
      = .SLOW_CLUSTER ∧
    notifications .TEGRA_CLUSTER_PRE_SWITCH
      (events_between (idle 1 false)
        (tegra_cluster_control (tegra210 0 (some 15)) 0 (1 <<< 25) (idle 1 false)).2)
      = [.SLOW_CLUSTER] ∧
    notifications .TEGRA_CLUSTER_POST_SWITCH
      (events_between (idle 1 false)
        (tegra_cluster_control (tegra210 0 (some 15)) 0 (1 <<< 25) (idle 1 false)).2)
      = [.SLOW_CLUSTER] :=
  switch_reaches_target (tegra210 0 (some 15)) 0 (1 <<< 25) (idle 1 false) .SLOW_CLUSTER 15
    (by decide) (by decide) (by decide) (by decide) (by decide) (by decide)

/-- C1, evaluated where the exchange fails: with the slow cluster enabled, Fast current and
Slow requested on CPU 0, a failed exchange still ends in return value 0, with a quiesce task
dispatched to CPU 1 (bit 1 of the pattern of `-EFAULT`), the cluster suspend executed and
the post-switch notification delivered. -/
theorem failed_exchange_runs_to_completion :
    firmware_reply (tegra210 0 none) = none ∧
    tegra_cluster_control (tegra210 0 none) 0 (1 <<< 25) (idle 1 false)
      = (.returned 0,
         { slow_cluster_enabled := 1, lp_cluster := false, switch_pending := false,
           trace :=
            [.trace_clusterswitch .NVPOWER_CPU_CLUSTER_START .FAST_CLUSTER .SLOW_CLUSTER,
             .mutex_lock,
             .notifier_call_chain .TEGRA_CLUSTER_PRE_SWITCH .SLOW_CLUSTER,
             .preempt_disable,
             .bpmp_request 0,
             .warn_on,
             .stop_one_cpu_nowait 1,
             .local_irq_save,
             .cpu_pm_enter,
             .cpu_suspend pg_cluster_arg,
             .cpu_pm_exit,
             .local_irq_restore,
             .preempt_enable,
             .notifier_call_chain .TEGRA_CLUSTER_POST_SWITCH .SLOW_CLUSTER,
             .mutex_unlock,
             .trace_clusterswitch .NVPOWER_CPU_CLUSTER_DONE .FAST_CLUSTER .SLOW_CLUSTER] }) ∧
    dispatched (tegra_cluster_control (tegra210 0 none) 0 (1 <<< 25) (idle 1 false)).2.trace
      = [1] ∧
    suspends (tegra_cluster_control (tegra210 0 none) 0 (1 <<< 25) (idle 1 false)).2.trace
      = [pg_cluster_arg] ∧
    notifications .TEGRA_CLUSTER_POST_SWITCH
      (tegra_cluster_control (tegra210 0 none) 0 (1 <<< 25) (idle 1 false)).2.trace
      = [.SLOW_CLUSTER] := by
  decide

/-- C3 as stated fails: with the slow cluster disabled and observed as current, a request
for Slow ends in `BUG_ON`, not in `-EINVAL`. -/
theorem slow_request_hits_bug_when_slow_is_current :
    (1 <<< 25) &&& (tegra210 0 (some 15)).TEGRA_POWER_CLUSTER_MASK
      = (tegra210 0 (some 15)).TEGRA_POWER_CLUSTER_LP ∧
    (idle 0 true).slow_cluster_enabled = 0 ∧
    (tegra_cluster_control (tegra210 0 (some 15)) 0 (1 <<< 25) (idle 0 true)).1 = .BUG ∧
    (tegra_cluster_control (tegra210 0 (some 15)) 0 (1 <<< 25) (idle 0 true)).1
      ≠ .returned (-EINVAL) := by
  decide

/-- C3, amended: a request for Slow while the slow cluster is disabled and Fast is current
returns `-EINVAL` and leaves the state as it was: nothing is added to the trace (no lock,
no firmware request, no notification) and the current cluster is unchanged. -/
theorem slow_request_rejected_when_disabled (p : Platform) (us flags : Nat) (m : Machine)
    (h_distinct : p.TEGRA_POWER_CLUSTER_G ≠ p.TEGRA_POWER_CLUSTER_LP)
    (h_req : flags &&& p.TEGRA_POWER_CLUSTER_MASK = p.TEGRA_POWER_CLUSTER_LP)
    (h_dis : m.slow_cluster_enabled = 0)
    (h_cur : current_cluster m = .FAST_CLUSTER) :
    tegra_cluster_control p us flags m = (.returned (-EINVAL), m) := by
  have hlp : m.lp_cluster = false := by
    cases h : m.lp_cluster
    · rfl
    · simp [current_cluster, is_lp_cluster, h, cluster.ofBool] at h_cur
  simp [tegra_cluster_control, h_req, h_dis, is_lp_cluster, hlp, cluster.ofBool, cluster.val,
    h_distinct.symm]

/-- Witness for the amended C3. -/
theorem slow_request_rejected_when_disabled_witness :
    tegra_cluster_control (tegra210 0 (some 15)) 0 (1 <<< 25) (idle 0 false)
      = (.returned (-EINVAL), idle 0 false) :=
  slow_request_rejected_when_disabled (tegra210 0 (some 15)) 0 (1 <<< 25) (idle 0 false)
    (by decide) (by decide) (by decide) (by decide)

theorem suspends_append (s t : List Event) :
    suspends (s ++ t) = suspends s ++ suspends t := by
  simp [suspends]

theorem firmware_requests_append (s t : List Event) :
    firmware_requests (s ++ t) = firmware_requests s ++ firmware_requests t := by
  simp [firmware_requests]

/-- C4: in a run of `switch_cluster` that switches, with reply mask `r` from a successful
exchange and the call running on CPU `c`, the CPUs a quiesce task is dispatched to are the
CPUs `i < 4` with bit `i` of `r` set, other than `c`, in increasing order, each exactly
once; CPU `c` is not among them. -/
theorem quiesce_set_is_mask_minus_self (p : Platform) (val : cluster) (m : Machine) (r : Nat)
    (h_switch : val ≠ current_cluster m)
    (h_fw : firmware_reply p = some r) :
    dispatched (events_between m (switch_cluster p val m))
      = (List.range 4).filter (fun i => r.testBit i && i != p.smp_processor_id) ∧
    (∀ i, (dispatched (events_between m (switch_cluster p val m))).count i
      = if i < 4 ∧ r.testBit i = true ∧ i ≠ p.smp_processor_id then 1 else 0) ∧
    p.smp_processor_id ∉ dispatched (events_between m (switch_cluster p val m)) := by
  have hne : val.val ≠ (is_lp_cluster m).toNat := by
    cases val <;> cases hlp : m.lp_cluster <;>
      simp [current_cluster, is_lp_cluster, cluster.ofBool, cluster.val, hlp] at h_switch ⊢
  have hd : dispatched (events_between m (switch_cluster p val m))
      = (List.range 4).filter (fun i => r.testBit i && i != p.smp_processor_id) := by
    rw [events_between_append m _ _ (by rw [switch_cluster_other p val m hne])]
    simp only [switch_body, dispatched_append, dispatched_bpmp, dispatched_stop, h_fw,
      bpmp_result, quiesce_cpus_eq]
    have e : dispatched (transition_events val) = [] := by
      simp [dispatched, transition_events]
    rw [e]
    simp only [dispatched, List.filterMap_cons, List.filterMap_nil, List.nil_append,
      List.append_nil]
    apply List.filter_congr
    intro i hi
    rw [testBit_to_u32_to_s32 r i (by have := List.mem_range.mp hi; omega)]
  have hmem : ∀ i, i ∈ (List.range 4).filter (fun i => r.testBit i && i != p.smp_processor_id)
      ↔ i < 4 ∧ r.testBit i = true ∧ i ≠ p.smp_processor_id := by
    intro i
    simp [List.mem_filter]
  have hnd : ((List.range 4).filter
      (fun i => r.testBit i && i != p.smp_processor_id)).Nodup :=
    (List.nodup_range 4).filter _
  refine ⟨hd, ?_, ?_⟩
  · intro i
    rw [hd]
    by_cases hi : i < 4 ∧ r.testBit i = true ∧ i ≠ p.smp_processor_id
    · rw [if_pos hi]
      exact List.count_eq_one_of_mem hnd ((hmem i).mpr hi)
    · rw [if_neg hi]
      exact List.count_eq_zero_of_not_mem (fun h => hi ((hmem i).mp h))
  · rw [hd]
    intro h
    exact ((hmem _).mp h).2.2 rfl

/-- Witness for C4: reply mask `{0,1,2,3}` on CPU 0 gives the quiesce set `{1,2,3}`. -/
theorem quiesce_set_is_mask_minus_self_witness :
    dispatched (events_between (idle 1 false)
      (switch_cluster (tegra210 0 (some 15)) .SLOW_CLUSTER (idle 1 false))) = [1, 2, 3] :=
  (quiesce_set_is_mask_minus_self (tegra210 0 (some 15)) .SLOW_CLUSTER (idle 1 false) 15
    (by decide) (by decide)).1.trans (by decide)

/-- C5: a call whose requested target is the current cluster, with invariant 1 holding,
returns 0 and does no part of a switch: no pre-switch and no post-switch notification, no
firmware request, no quiesce dispatch, no suspend call; the current cluster is unchanged. -/
theorem same_cluster_request_is_no_switch (p : Platform) (us flags : Nat) (m : Machine)
    (t : cluster)
    (h_distinct : p.TEGRA_POWER_CLUSTER_G ≠ p.TEGRA_POWER_CLUSTER_LP)
    (h_req : flags &&& p.TEGRA_POWER_CLUSTER_MASK = request_flag p t)
    (h_cur : current_cluster m = t)
    (h_inv : invariant1 m) :
    (tegra_cluster_control p us flags m).1 = .returned 0 ∧
    notifications .TEGRA_CLUSTER_PRE_SWITCH
      (events_between m (tegra_cluster_control p us flags m).2) = [] ∧
    notifications .TEGRA_CLUSTER_POST_SWITCH
      (events_between m (tegra_cluster_control p us flags m).2) = [] ∧
    firmware_requests (events_between m (tegra_cluster_control p us flags m).2) = [] ∧
    dispatched (events_between m (tegra_cluster_control p us flags m).2) = [] ∧
    suspends (events_between m (tegra_cluster_control p us flags m).2) = [] ∧
    current_cluster (tegra_cluster_control p us flags m).2 = current_cluster m := by
  rw [tegra_cluster_control_same p us flags m t h_distinct h_req h_cur h_inv]
  simp [events_between, notifications, firmware_requests, dispatched, suspends,
    current_cluster, is_lp_cluster]

/-- Witness for C5: Fast is requested while Fast is current. -/
theorem same_cluster_request_is_no_switch_witness :
    (tegra_cluster_control (tegra210 0 (some 15)) 0 (1 <<< 24) (idle 1 false)).1 = .returned 0 ∧
    notifications .TEGRA_CLUSTER_PRE_SWITCH (events_between (idle 1 false)
      (tegra_cluster_control (tegra210 0 (some 15)) 0 (1 <<< 24) (idle 1 false)).2) = [] ∧
    notifications .TEGRA_CLUSTER_POST_SWITCH (events_between (idle 1 false)
      (tegra_cluster_control (tegra210 0 (some 15)) 0 (1 <<< 24) (idle 1 false)).2) = [] ∧
    firmware_requests (events_between (idle 1 false)
      (tegra_cluster_control (tegra210 0 (some 15)) 0 (1 <<< 24) (idle 1 false)).2) = [] ∧
    dispatched (events_between (idle 1 false)
      (tegra_cluster_control (tegra210 0 (some 15)) 0 (1 <<< 24) (idle 1 false)).2) = [] ∧
    suspends (events_between (idle 1 false)
      (tegra_cluster_control (tegra210 0 (some 15)) 0 (1 <<< 24) (idle 1 false)).2) = [] ∧
    current_cluster (tegra_cluster_control (tegra210 0 (some 15)) 0 (1 <<< 24) (idle 1 false)).2
      = current_cluster (idle 1 false) :=
  same_cluster_request_is_no_switch (tegra210 0 (some 15)) 0 (1 <<< 24) (idle 1 false)
    .FAST_CLUSTER (by decide) (by decide) (by decide) (by decide)

/-- C6 as stated fails: a request for Fast while Fast is current acquires the lock. -/
theorem same_cluster_request_takes_lock :
    (1 <<< 24) &&& (tegra210 0 (some 15)).TEGRA_POWER_CLUSTER_MASK
      = request_flag (tegra210 0 (some 15)) (current_cluster (idle 1 false)) ∧
    Event.mutex_lock ∈ events_between (idle 1 false)
      (tegra_cluster_control (tegra210 0 (some 15)) 0 (1 <<< 24) (idle 1 false)).2 := by
  decide

/-- C6, amended: a call whose requested target is the current cluster, with invariant 1
holding, acquires the lock once and releases it at once; between the two tracepoints the
lock and the unlock are the only events. -/
theorem same_cluster_request_locks_and_unlocks (p : Platform) (us flags : Nat) (m : Machine)
    (t : cluster)
    (h_distinct : p.TEGRA_POWER_CLUSTER_G ≠ p.TEGRA_POWER_CLUSTER_LP)
    (h_req : flags &&& p.TEGRA_POWER_CLUSTER_MASK = request_flag p t)
    (h_cur : current_cluster m = t)
    (h_inv : invariant1 m) :
    events_between m (tegra_cluster_control p us flags m).2
      = [.trace_clusterswitch .NVPOWER_CPU_CLUSTER_START t t, .mutex_lock, .mutex_unlock,
         .trace_clusterswitch .NVPOWER_CPU_CLUSTER_DONE t t] := by
  rw [tegra_cluster_control_same p us flags m t h_distinct h_req h_cur h_inv]
  simp [events_between]

/-- Witness for the amended C6: Slow is requested while Slow is current. -/
theorem same_cluster_request_locks_and_unlocks_witness :
    events_between (idle 1 true)
        (tegra_cluster_control (tegra210 2 none) 7 (1 <<< 25) (idle 1 true)).2
      = [.trace_clusterswitch .NVPOWER_CPU_CLUSTER_START .SLOW_CLUSTER .SLOW_CLUSTER,
         .mutex_lock, .mutex_unlock,
         .trace_clusterswitch .NVPOWER_CPU_CLUSTER_DONE .SLOW_CLUSTER .SLOW_CLUSTER] :=
  same_cluster_request_locks_and_unlocks (tegra210 2 none) 7 (1 <<< 25) (idle 1 true)
    .SLOW_CLUSTER (by decide) (by decide) (by decide) (by decide)

/-- C7: when the cluster field of `flags` is neither the request for Fast nor the request
for Slow, a call with invariant 1 holding returns 0 and leaves the state as it was, whatever
the duration hint: nothing is added to the trace and the current cluster is unchanged. -/
theorem unrecognized_flags_are_no_switch (p : Platform) (us flags : Nat) (m : Machine)
    (h_not_g : flags &&& p.TEGRA_POWER_CLUSTER_MASK ≠ p.TEGRA_POWER_CLUSTER_G)
    (h_not_lp : flags &&& p.TEGRA_POWER_CLUSTER_MASK ≠ p.TEGRA_POWER_CLUSTER_LP)
    (h_inv : invariant1 m) :
    tegra_cluster_control p us flags m = (.returned 0, m) := by
  have hb : (m.slow_cluster_enabled == 0 && (cluster.ofBool (is_lp_cluster m)).val != 0)
      = false := by
    cases hlp : m.lp_cluster
    · simp [is_lp_cluster, hlp, cluster.ofBool, cluster.val]
    · have : m.slow_cluster_enabled ≠ 0 := by
        apply h_inv
        simp [current_cluster, is_lp_cluster, hlp, cluster.ofBool]
      simp [this]
  simp [tegra_cluster_control, hb, h_not_g, h_not_lp]

/-- Witness for C7: both request flags set together, and no flag set. -/
theorem unrecognized_flags_are_no_switch_witness :
    tegra_cluster_control (tegra210 0 (some 15)) 100 ((1 <<< 24) ||| (1 <<< 25)) (idle 1 false)
      = (.returned 0, idle 1 false) ∧
    tegra_cluster_control (tegra210 0 (some 15)) 0 0 (idle 1 true)
      = (.returned 0, idle 1 true) :=
  ⟨unrecognized_flags_are_no_switch (tegra210 0 (some 15)) 100 ((1 <<< 24) ||| (1 <<< 25))
      (idle 1 false) (by decide) (by decide) (by decide),
   unrecognized_flags_are_no_switch (tegra210 0 (some 15)) 0 0 (idle 1 true)
      (by decide) (by decide) (by decide)⟩

/-! ## The switch serializer -/

/-- C9: every run of `switch_cluster` takes the lock as its first event and releases it as
its last, and does neither in between.  Between the two it either does nothing, or it
delivers the pre-switch notification, makes the firmware request, dispatches the quiesce
tasks, makes the local cluster transition and delivers the post-switch notification, in
this order; so the pre-switch notifications of a run are its post-switch notifications, and
the lock is not released between the two. -/
theorem switch_cluster_lock_discipline (p : Platform) (val : cluster) (m : Machine) :
    ∃ body : List Event,
      events_between m (switch_cluster p val m) = [.mutex_lock] ++ body ++ [.mutex_unlock] ∧
      Event.mutex_lock ∉ body ∧ Event.mutex_unlock ∉ body ∧
      notifications .TEGRA_CLUSTER_PRE_SWITCH body
        = notifications .TEGRA_CLUSTER_POST_SWITCH body ∧
      (body = [] ∨
        ∃ fw quiesce : List Event,
          body = [.notifier_call_chain .TEGRA_CLUSTER_PRE_SWITCH val, .preempt_disable] ++
            fw ++ quiesce ++
            [.local_irq_save, .cpu_pm_enter, .cpu_suspend pg_cluster_arg, .cpu_pm_exit,
             .local_irq_restore, .preempt_enable,
             .notifier_call_chain .TEGRA_CLUSTER_POST_SWITCH val] ∧
          (fw = [.bpmp_request (request_word p)] ∨
            fw = [.bpmp_request (request_word p), .warn_on]) ∧
          ∀ ev ∈ quiesce, ∃ cpu, ev = .stop_one_cpu_nowait cpu) := by
  by_cases h : val.val = (is_lp_cluster m).toNat
  · refine ⟨[], ?_, by simp, by simp, rfl, Or.inl rfl⟩
    rw [switch_cluster_same p val m h]
    simp [events_between]
  · have hfw : bpmp_events (request_word p) (firmware_reply p)
          = [.bpmp_request (request_word p)] ∨
        bpmp_events (request_word p) (firmware_reply p)
          = [.bpmp_request (request_word p), .warn_on] := by
      cases firmware_reply p <;> simp [bpmp_events]
    refine ⟨switch_body p val, ?_, ?_, ?_, ?_, Or.inr ⟨bpmp_events (request_word p)
      (firmware_reply p), (quiesce_cpus (bpmp_result (firmware_reply p))
        p.smp_processor_id).map Event.stop_one_cpu_nowait, rfl, hfw, ?_⟩⟩
    · exact events_between_append m _ _ (by rw [switch_cluster_other p val m h])
    · rcases hfw with e | e <;> simp [switch_body, e, transition_events]
    · rcases hfw with e | e <;> simp [switch_body, e, transition_events]
    · simp only [switch_body, notifications_append, notifications_bpmp, notifications_stop]
      simp [transition_events, notifications]
    · intro ev hev
      obtain ⟨cpu, _, rfl⟩ := List.mem_map.mp hev
      exact ⟨cpu, rfl⟩

end ClusterControl

namespace Mods

open Errno

/-! ## Lemmas on the page loop -/

theorem PAGE_SIZE_eq (c : Config) : PAGE_SIZE c = 2 ^ c.PAGE_SHIFT := by
  simp [PAGE_SIZE, Nat.one_shiftLeft]

theorem PAGE_SIZE_pos (c : Config) : 0 < PAGE_SIZE c := by
  rw [PAGE_SIZE_eq]; positivity

theorem phys_ulong_bits (a : Arch) :
    max (PHYS_ADDR_BITS a) (BITS_PER_LONG a) = PHYS_ADDR_BITS a := by
  cases a <;> rfl

theorem run_from_le (c : Config) (base : Nat) (l : List Nat) (cnt : Nat) :
    run_from c base cnt l ≤ l.length := by
  induction l generalizing cnt with
  | nil => simp [run_from]
  | cons pg rest ih =>
    simp only [run_from, List.length_cons]
    split
    · have := ih (cnt + 1); omega
    · omega

theorem run_from_get (c : Config) (base : Nat) (l : List Nat) (cnt j : Nat)
    (hj : j < run_from c base cnt l) :
    l.getD j 0 = base + (cnt + j) * PAGE_SIZE c := by
  induction l generalizing cnt j with
  | nil => simp [run_from] at hj
  | cons pg rest ih =>
    simp only [run_from] at hj
    split at hj
    · rename_i hpg
      cases j with
      | zero => simpa using hpg
      | succ j =>
        have := ih (cnt + 1) j (by omega)
        simp only [List.getD_cons_succ]
        rw [this]
        congr 2
        omega
    · omega

theorem run_from_max (c : Config) (base : Nat) (l : List Nat) (cnt r : Nat)
    (hr : r ≤ l.length)
    (h : ∀ j, j < r → l.getD j 0 = base + (cnt + j) * PAGE_SIZE c) :
    r ≤ run_from c base cnt l := by
  induction l generalizing cnt r with
  | nil =>
    simp only [List.length_nil] at hr
    omega
  | cons pg rest ih =>
    cases r with
    | zero => omega
    | succ r =>
      have h0 := h 0 (by omega)
      simp only [List.getD_cons_zero, Nat.add_zero] at h0
      simp only [run_from, h0, if_true]
      have := ih (cnt + 1) r (by simpa using hr) (by
        intro j hj
        have := h (j + 1) (by omega)
        simp only [List.getD_cons_succ] at this
        rw [this]
        congr 2
        omega)
      omega

/-- Once the first page is taken, the loop counts the pages that continue the run, as long
as nothing wraps on the run: the counter, the byte offset of the last page of the run and
its address are representable, and the page after the run, if there is one, is not at the
address the driver computes for it. -/
theorem for_each_sg_page_run (c : Config) (base : Nat) (l : List Nat) (cnt : Nat)
    (h1 : 1 ≤ cnt)
    (hcnt : cnt + run_from c base cnt l < 2 ^ 32)
    (hlong : (cnt + run_from c base cnt l - 1) * PAGE_SIZE c < 2 ^ BITS_PER_LONG c.arch)
    (hphys : base + (cnt + run_from c base cnt l - 1) * PAGE_SIZE c
      < 2 ^ PHYS_ADDR_BITS c.arch)
    (hnext : run_from c base cnt l < l.length →
      l.getD (run_from c base cnt l) 0 ≠ to_phys_ulong c
        (base + to_ulong c (PAGE_SIZE c * (cnt + run_from c base cnt l)))) :
    for_each_sg_page c l { page_phys_addr := base, contig_pages := cnt }
      = { page_phys_addr := base, contig_pages := cnt + run_from c base cnt l } := by
  induction l generalizing cnt with
  | nil => simp [for_each_sg_page, run_from]
  | cons pg rest ih =>
    have hc0 : ¬ (cnt = 0) := by omega
    by_cases hpg : pg = base + cnt * PAGE_SIZE c
    · have hr : run_from c base cnt (pg :: rest) = 1 + run_from c base (cnt + 1) rest := by
        simp [run_from, hpg]
      rw [hr] at hcnt hlong hphys hnext ⊢
      have hidx : cnt + (1 + run_from c base (cnt + 1) rest)
          = cnt + 1 + run_from c base (cnt + 1) rest := by omega
      rw [hidx] at hcnt hlong hphys hnext
      have hmono : cnt * PAGE_SIZE c
          ≤ (cnt + 1 + run_from c base (cnt + 1) rest - 1) * PAGE_SIZE c :=
        Nat.mul_le_mul_right _ (by omega)
      have e1 : to_ulong c (PAGE_SIZE c * cnt) = cnt * PAGE_SIZE c := by
        rw [to_ulong, Nat.mul_comm]
        exact Nat.mod_eq_of_lt (by omega)
      have e2 : to_phys_ulong c (base + cnt * PAGE_SIZE c) = base + cnt * PAGE_SIZE c := by
        rw [to_phys_ulong, phys_ulong_bits]
        exact Nat.mod_eq_of_lt (by omega)
      have e3 : to_uint (cnt + 1) = cnt + 1 := by
        rw [to_uint]
        exact Nat.mod_eq_of_lt (by omega)
      simp only [for_each_sg_page, scan_page, beq_iff_eq, hc0, if_false, e1, e2, e3, hpg,
        if_true]
      rw [ih (cnt + 1) (by omega) hcnt hlong hphys (by
        intro hlt
        have := hnext (by simp only [List.length_cons]; omega)
        rw [show 1 + run_from c base (cnt + 1) rest
          = run_from c base (cnt + 1) rest + 1 by omega, List.getD_cons_succ] at this
        exact this), hidx]
    · have hr : run_from c base cnt (pg :: rest) = 0 := by
        simp [run_from, hpg]
      rw [hr] at hnext ⊢
      have hne := hnext (by simp)
      simp only [List.getD_cons_zero, Nat.add_zero] at hne
      simp [for_each_sg_page, scan_page, hc0, hne]

theorem getD_drop (p : List Nat) (n j : Nat) :
    (p.drop n).getD j 0 = p.getD (n + j) 0 := by
  simp [List.getD_eq_getElem?_getD, List.getElem?_drop]

theorem drop_eq_cons (p : List Nat) (k : Nat) (hk : k < p.length) :
    p.drop k = p.getD k 0 :: p.drop (k + 1) := by
  rw [List.drop_eq_getElem_cons hk]
  simp [List.getD_eq_getElem?_getD, List.getElem?_eq_getElem hk]

theorem subpage_ofs_eq (c : Config) (offset : Nat) (h_off : offset ≤ UINT_MAX) :
    to_uint (offset &&& (PAGE_SIZE c - 1)) = offset % PAGE_SIZE c := by
  rw [PAGE_SIZE_eq, Nat.and_pow_two_sub_one_eq_mod, to_uint]
  apply Nat.mod_eq_of_lt
  have := Nat.mod_le offset (2 ^ c.PAGE_SHIFT)
  simp only [UINT_MAX] at h_off
  omega

theorem two_pow_32_le_long (a : Arch) : 2 ^ 32 ≤ 2 ^ BITS_PER_LONG a := by
  cases a <;> simp [BITS_PER_LONG]

theorem two_pow_long_le_64 (a : Arch) : 2 ^ BITS_PER_LONG a ≤ 2 ^ 64 := by
  cases a <;> simp [BITS_PER_LONG]

theorem two_pow_phys_le_64 (a : Arch) : 2 ^ PHYS_ADDR_BITS a ≤ 2 ^ 64 := by
  cases a <;> simp [PHYS_ADDR_BITS]

/-- The maximal run from page `k` is the first page and the pages that continue it. -/
theorem maximal_run_run_from (c : Config) (p : List Nat) (k : Nat) (hk : k < p.length) :
    maximal_run c p k (1 + run_from c (p.getD k 0) 1 (p.drop (k + 1))) := by
  have hlen : (p.drop (k + 1)).length = p.length - (k + 1) := List.length_drop _ _
  refine ⟨⟨?_, ?_⟩, ?_⟩
  · have := run_from_le c (p.getD k 0) (p.drop (k + 1)) 1
    omega
  · intro j hj
    cases j with
    | zero => simp
    | succ j =>
      have := run_from_get c (p.getD k 0) (p.drop (k + 1)) 1 j (by omega)
      rw [getD_drop] at this
      rw [show k + (j + 1) = k + 1 + j by omega, this]
      congr 2
      omega
  · intro m' hm'
    cases m' with
    | zero => omega
    | succ r =>
      have := run_from_max c (p.getD k 0) (p.drop (k + 1)) 1 r (by
        have := hm'.1
        omega) (by
        intro j hj
        rw [getD_drop, show k + 1 + j = k + (j + 1) by omega, hm'.2 (j + 1) (by omega)]
        congr 2
        omega)
      omega

/-- A maximal run from a page below the page count has at least one page, and its length
is one more than the number of pages that continue it. -/
theorem maximal_run_eq (c : Config) (p : List Nat) (k m : Nat) (hk : k < p.length)
    (h : maximal_run c p k m) :
    m = 1 + run_from c (p.getD k 0) 1 (p.drop (k + 1)) := by
  have h' := maximal_run_run_from c p k hk
  have a := h.2 _ h'.1
  have b := h'.2 _ h.1
  omega

/-- Subtraction of the offset within the page from the byte size of the run, as the driver
computes it in `unsigned long`, when the difference is representable. -/
theorem segment_size_eq (c : Config) (x ofs : Nat) (hofs : ofs < 2 ^ 32) (hle : ofs ≤ x)
    (hx : x - ofs < 2 ^ BITS_PER_LONG c.arch) :
    to_u64 (to_ulong c (to_ulong c x + 2 ^ BITS_PER_LONG c.arch - to_ulong c ofs))
      = x - ofs := by
  have h32 := two_pow_32_le_long c.arch
  have hL64 := two_pow_long_le_64 c.arch
  have e2 : to_ulong c ofs = ofs := Nat.mod_eq_of_lt (by omega)
  rw [e2, to_u64]
  simp only [to_ulong]
  generalize 2 ^ BITS_PER_LONG c.arch = M at *
  by_cases hlt : x < M
  · rw [Nat.mod_eq_of_lt hlt, show x + M - ofs = (x - ofs) + M by omega, Nat.add_mod_right,
      Nat.mod_eq_of_lt hx]
    exact Nat.mod_eq_of_lt (by omega)
  · have hxm : x % M = x - M := by
      rw [Nat.mod_eq_sub_mod (by omega)]
      exact Nat.mod_eq_of_lt (by omega)
    rw [hxm, show x - M + M - ofs = x - ofs by omega, Nat.mod_eq_of_lt hx]
    exact Nat.mod_eq_of_lt (by omega)

/-- C10 as stated fails: on 32-bit ARM with 4 KiB pages, a buffer whose first page is the
last page below 4 GiB and whose second page is at address 0 has a maximal contiguous run of
one page from page 0, but the address the driver computes for the next page wraps to 0, so
it counts two pages: `segment_size` is 0x1ff0 where the claim gives 0xff0. -/
theorem esc_mods_dmabuf_get_phys_addr_wraps :
    (0x10 : Nat) ≤ UINT_MAX ∧ (0x10 >>> 12) < [0xfffff000, 0x0].length ∧
    maximal_run ⟨.arm, 12⟩ [0xfffff000, 0x0] (0x10 >>> 12) 1 ∧
    esc_mods_dmabuf_get_phys_addr ⟨.arm, 12⟩ (mapped [0xfffff000, 0x0]) ⟨3, 0x10, 0, 0⟩
      = (0, ⟨3, 0x10, 0xfffff010, 0x1ff0⟩) ∧
    ¬ ∃ m, 1 ≤ m ∧ maximal_run ⟨.arm, 12⟩ [0xfffff000, 0x0] (0x10 >>> 12) m ∧
      esc_mods_dmabuf_get_phys_addr ⟨.arm, 12⟩ (mapped [0xfffff000, 0x0]) ⟨3, 0x10, 0, 0⟩
        = (0, { buf_fd := 3, offset := 0x10,
                physical_address :=
                  [0xfffff000, 0x0].getD (0x10 >>> 12) 0 + 0x10 % PAGE_SIZE ⟨.arm, 12⟩
                segment_size := m * PAGE_SIZE ⟨.arm, 12⟩ - 0x10 % PAGE_SIZE ⟨.arm, 12⟩ }) := by
  have hmax : maximal_run ⟨.arm, 12⟩ [0xfffff000, 0x0] (0x10 >>> 12) 1 :=
    maximal_run_run_from ⟨.arm, 12⟩ [0xfffff000, 0x0] (0x10 >>> 12) (by decide)
  refine ⟨by decide, by decide, hmax, by decide, ?_⟩
  rintro ⟨m, hm1, hm, hres⟩
  have hm' : m = 1 := by
    have a := hmax.2 m hm.1
    omega
  subst hm'
  revert hres
  decide

/-- C10, amended: for a mapped buffer with page addresses `p`, an offset at most `UINT_MAX`
whose page index `k` is below the page count, and `m` the length of the maximal physically
contiguous run from page `k`, the call returns 0 with `physical_address` equal to `p[k]`
plus the offset within the page and `segment_size` equal to `m` pages less that offset,
provided nothing wraps on the run: `m` fits `unsigned int`, the segment size fits
`unsigned long`, the address returned and the address of the last page of the run fit
`phys_addr_t`, and the page after the run, if there is one, is not at the address the
driver computes for it, `(p[k] + m * PAGE_SIZE mod 2^BITS_PER_LONG) mod 2^PHYS_ADDR_BITS`. -/
theorem esc_mods_dmabuf_get_phys_addr_run (c : Config) (p : List Nat)
    (op : MODS_DMABUF_GET_PHYSICAL_ADDRESS) (m : Nat)
    (h_off : op.offset ≤ UINT_MAX)
    (h_k : op.offset >>> c.PAGE_SHIFT < p.length)
    (h_max : maximal_run c p (op.offset >>> c.PAGE_SHIFT) m)
    (h_cnt : m < 2 ^ 32)
    (h_size : m * PAGE_SIZE c - op.offset % PAGE_SIZE c < 2 ^ BITS_PER_LONG c.arch)
    (h_addr : p.getD (op.offset >>> c.PAGE_SHIFT) 0 + op.offset % PAGE_SIZE c
      < 2 ^ PHYS_ADDR_BITS c.arch)
    (h_last : p.getD (op.offset >>> c.PAGE_SHIFT) 0 + (m - 1) * PAGE_SIZE c
      < 2 ^ PHYS_ADDR_BITS c.arch)
    (h_next : (op.offset >>> c.PAGE_SHIFT) + m < p.length →
      p.getD ((op.offset >>> c.PAGE_SHIFT) + m) 0
        ≠ (p.getD (op.offset >>> c.PAGE_SHIFT) 0
            + (m * PAGE_SIZE c) % 2 ^ BITS_PER_LONG c.arch) % 2 ^ PHYS_ADDR_BITS c.arch) :
    1 ≤ m ∧
    esc_mods_dmabuf_get_phys_addr c (mapped p) op
      = (0, { op with
              physical_address :=
                p.getD (op.offset >>> c.PAGE_SHIFT) 0 + op.offset % PAGE_SIZE c
              segment_size := m * PAGE_SIZE c - op.offset % PAGE_SIZE c }) := by
  generalize hk : op.offset >>> c.PAGE_SHIFT = k at *
  have hps := PAGE_SIZE_pos c
  have h32 := two_pow_32_le_long c.arch
  have hP64 := two_pow_phys_le_64 c.arch
  have hm := maximal_run_eq c p k m h_k h_max
  have hlen : (p.drop (k + 1)).length = p.length - (k + 1) := List.length_drop _ _
  generalize hr : run_from c (p.getD k 0) 1 (p.drop (k + 1)) = r at hm
  subst hm
  have hkle : k ≤ op.offset := by
    rw [← hk, Nat.shiftRight_eq_div_pow]
    exact Nat.div_le_self _ _
  have hku : to_ulong c k = k := by
    rw [to_ulong]
    apply Nat.mod_eq_of_lt
    simp only [UINT_MAX] at h_off
    omega
  have hsub := subpage_ofs_eq c op.offset h_off
  have hsublt : op.offset % PAGE_SIZE c < PAGE_SIZE c := Nat.mod_lt _ hps
  have hofs32 : op.offset % PAGE_SIZE c < 2 ^ 32 := by
    have := Nat.mod_le op.offset (PAGE_SIZE c)
    simp only [UINT_MAX] at h_off
    omega
  have hm1 : PAGE_SIZE c ≤ (1 + r) * PAGE_SIZE c := Nat.le_mul_of_pos_left _ (by omega)
  have hsplit : (1 + r) * PAGE_SIZE c = r * PAGE_SIZE c + PAGE_SIZE c := by
    rw [Nat.add_mul, Nat.one_mul, Nat.add_comm]
  have hrun := for_each_sg_page_run c (p.getD k 0) (p.drop (k + 1)) 1 (le_refl 1)
    (by rw [hr]; exact h_cnt)
    (by rw [hr, Nat.add_sub_cancel_left]; omega)
    (by rw [hr, Nat.add_sub_cancel_left]; simpa using h_last)
    (by
      rw [hr, hlen]
      intro hlt
      have := h_next (by omega)
      rw [getD_drop, to_phys_ulong, phys_ulong_bits, to_ulong, Nat.mul_comm,
        show k + 1 + r = k + (1 + r) by omega]
      exact this)
  rw [hr] at hrun
  have hscan : for_each_sg_page c (p.drop k) { page_phys_addr := 0, contig_pages := 0 }
      = { page_phys_addr := p.getD k 0, contig_pages := 1 + r } := by
    rw [drop_eq_cons p k h_k]
    simpa [for_each_sg_page, scan_page] using hrun
  have ephys : to_u64 (to_phys c (p.getD k 0 + op.offset % PAGE_SIZE c))
      = p.getD k 0 + op.offset % PAGE_SIZE c := by
    rw [to_u64, to_phys, Nat.mod_eq_of_lt h_addr]
    exact Nat.mod_eq_of_lt (by omega)
  have eseg := segment_size_eq c ((1 + r) * PAGE_SIZE c) (op.offset % PAGE_SIZE c) hofs32
    (by omega) h_size
  have hnot : ¬ (op.offset > UINT_MAX) := by omega
  refine ⟨by omega, ?_⟩
  simp only [esc_mods_dmabuf_get_phys_addr, mapped, hnot, if_false, hk, hku, hscan, hsub,
    ephys, eseg]
  simp

/-- Witness for the amended C10: on 32-bit ARM, a first page just below the top of the
address space followed by two pages elsewhere (run of one page, nothing wraps), and on
64-bit ARM three pages of which the first two are contiguous (run of two pages). -/
theorem esc_mods_dmabuf_get_phys_addr_run_witness :
    esc_mods_dmabuf_get_phys_addr ⟨.arm, 12⟩
        (mapped [0xffffe000, 0x90000000, 0xa0000000]) ⟨3, 0x10, 0, 0⟩
      = (0, ⟨3, 0x10, 0xffffe010, 0xff0⟩) ∧
    esc_mods_dmabuf_get_phys_addr ⟨.arm64, 12⟩
        (mapped [0x80000000, 0x80001000, 0x90000000]) ⟨3, 0x10, 0, 0⟩
      = (0, ⟨3, 0x10, 0x80000010, 0x1ff0⟩) :=
  ⟨(esc_mods_dmabuf_get_phys_addr_run ⟨.arm, 12⟩ [0xffffe000, 0x90000000, 0xa0000000]
      ⟨3, 0x10, 0, 0⟩ 1 (by decide) (by decide)
      (maximal_run_run_from ⟨.arm, 12⟩ [0xffffe000, 0x90000000, 0xa0000000] (0x10 >>> 12)
        (by decide))
      (by decide) (by decide) (by decide) (by decide) (by decide)).2,
   (esc_mods_dmabuf_get_phys_addr_run ⟨.arm64, 12⟩ [0x80000000, 0x80001000, 0x90000000]
      ⟨3, 0x10, 0, 0⟩ 2 (by decide) (by decide)
      (maximal_run_run_from ⟨.arm64, 12⟩ [0x80000000, 0x80001000, 0x90000000] (0x10 >>> 12)
        (by decide))
      (by decide) (by decide) (by decide) (by decide) (by decide)).2⟩

end Mods
